import Mathlib

/-! The node-mapnik `GridView` binding (`src/mapnik_grid_view.cpp`).

A shallow embedding of the methods the binding registers on `GridView`
(`isSolid`, `getPixel`, `encodeSync`, `encode` with its two work callbacks) and
the properties proved about them. Bound methods return an `Outcome`; the asynchronous
path acts on an explicit runtime state (`World`); the templates of `js_grid_utils.hpp`
that the binding calls are collaborators handed in through `Env`.
-/

set_option autoImplicit false

namespace NodeMapnik

/-! ## JavaScript values and the V8 calls the binding makes -/

/-- JavaScript values, as far as the binding inspects or builds them.
A `number` carries an integer-valued number in the range of `int64_t` (the binding reads
numbers only through `IntegerValue`; fractional and larger numbers are not described);
`string16` is a string built from 16-bit code units (`String::New(const uint16_t*, int)`),
`string` one built from a C string. -/
inductive JsValue where
  | undefined : JsValue
  | null : JsValue
  | boolean (b : Bool) : JsValue
  | number (v : Int) : JsValue
  | string (s : String) : JsValue
  | string16 (units : List Nat) : JsValue
  | array (elems : List JsValue) : JsValue
  | object (props : List (String × JsValue)) : JsValue
  | function (id : Nat) (props : List (String × JsValue)) : JsValue
  | error (message : String) : JsValue
  | typeError (message : String) : JsValue

namespace JsValue

/-- V8 `Value::IsNumber`. -/
def IsNumber : JsValue → Bool
  | number _ => true
  | _ => false

/-- V8 `Value::IsString`. -/
def IsString : JsValue → Bool
  | string _ => true
  | string16 _ => true
  | _ => false

/-- V8 `Value::IsBoolean`. -/
def IsBoolean : JsValue → Bool
  | boolean _ => true
  | _ => false

/-- V8 `Value::IsFunction`. -/
def IsFunction : JsValue → Bool
  | function _ _ => true
  | _ => false

/-- V8 `Value::IsObject`: objects, arrays, functions and error objects. -/
def IsObject : JsValue → Bool
  | object _ => true
  | array _ => true
  | function _ _ => true
  | error _ => true
  | typeError _ => true
  | _ => false

/-- V8 `Value::IntegerValue` (an `int64_t`); the binding calls it only after `IsNumber`. -/
def IntegerValue : JsValue → Int
  | number v => v
  | boolean true => 1
  | _ => 0

/-- V8 `Value::BooleanValue`; the binding calls it only after `IsBoolean`. -/
def BooleanValue : JsValue → Bool
  | boolean b => b
  | undefined => false
  | null => false
  | number v => v != 0
  | string s => s != ""
  | string16 u => !u.isEmpty
  | _ => true

/-- The properties of the object a value converts to (`ToObject`), as `Has` and `Get`
see them. -/
def ownProps : JsValue → List (String × JsValue)
  | object props => props
  | function _ props => props
  | _ => []

/-- Property lookup in a property list, first entry with the key. -/
def lookupProp (key : String) : List (String × JsValue) → Option JsValue
  | [] => none
  | (k, v) :: rest => if k = key then some v else lookupProp key rest

/-- V8 `Object::Has(key)`. -/
def Has (o : JsValue) (key : String) : Bool :=
  (lookupProp key o.ownProps).isSome

/-- V8 `Object::Get(key)`: the property, `undefined` when there is none. -/
def Get (o : JsValue) (key : String) : JsValue :=
  (lookupProp key o.ownProps).getD undefined

end JsValue

/-- V8 `Arguments::operator[]`: `undefined` for an index below zero or past the end. -/
def argAt (args : List JsValue) (i : Int) : JsValue :=
  if i < 0 then JsValue.undefined else args.getD i.toNat JsValue.undefined

/-- Conversion of an `int64_t` to `unsigned` (32 bits): reduction modulo `2^32`. -/
def toUnsigned (v : Int) : Nat :=
  (v % 4294967296).toNat

/-- How a call of a bound method ends. `threw e` is `return ThrowException(e)`,
`uncaught` a C++ exception that leaves the method, `fault` an integer division by zero. -/
inductive Outcome where
  | returned (v : JsValue) : Outcome
  | threw (e : JsValue) : Outcome
  | uncaught : Outcome
  | fault : Outcome

/-- A counting loop `for (unsigned i = 0; i < n; ++i) body` whose body may `return`:
`some r` when iteration `i` returned `r` (later iterations do not run), `none` when the
loop ran to its end. -/
def forLoop {ρ : Type} (n : Nat) (body : Nat → Option ρ) : Option ρ :=
  (List.range n).findSome? body

/-! ## The view -/

/-- A `mapnik::grid_view` as the binding uses it: `width()`, `height()` (both `unsigned`)
and `getRow(y)[x]`. The pixel type `mapnik::grid_view::value_type` is declared by the
mapnik library; a pixel is an integer here. -/
structure GridView where
  width : Nat
  height : Nat
  getRow : Nat → Nat → Int
  width_lt : width < 4294967296
  height_lt : height < 4294967296

/-- Method `GridView::isSolid` (lines 98-120). -/
def isSolid (view : GridView) : Outcome :=
  let scan : Option Outcome :=
    if view.width > 0 ∧ view.height > 0 then
      let first_row := view.getRow 0
      let first_pixel := first_row 0
      forLoop view.height fun y =>
        let row := view.getRow y
        forLoop view.width fun x =>
          if first_pixel ≠ row x then some (Outcome.returned (JsValue.boolean false))
          else none
    else none
  match scan with
  | some r => r
  | none => Outcome.returned (JsValue.boolean true)

/-- Method `GridView::getPixel` (lines 122-153). -/
def getPixel (view : GridView) (args : List JsValue) : Outcome :=
  if args.length ≥ 2 then
    if !(argAt args 0).IsNumber then
      Outcome.threw (JsValue.typeError "first arg, 'x' must be an integer")
    else if !(argAt args 1).IsNumber then
      Outcome.threw (JsValue.typeError "second arg, 'y' must be an integer")
    else
      let x : Nat := toUnsigned (argAt args 0).IntegerValue
      let y : Nat := toUnsigned (argAt args 1).IntegerValue
      if x < view.width ∧ y < view.height then
        let row := view.getRow y
        let pixel := row x
        Outcome.returned (JsValue.number pixel)
      else Outcome.returned JsValue.undefined
  else
    Outcome.threw (JsValue.typeError "must supply x,y to query pixel color")

/-- A 1x1 view whose only pixel holds feature id 7. -/
def onePixelView : GridView :=
  ⟨1, 1, fun _ _ => 7, by decide, by decide⟩

/-! ## Encoding: collaborators and runtime state -/

/-- A counting loop `for (unsigned i = 0; i < n; ++i) body` without `return`, threading
the state the body updates. -/
def forEach {σ : Type} (n : Nat) (body : Nat → σ → σ) (init : σ) : σ :=
  (List.range n).foldl (fun s i => body i s) init

/-- V8 `Array::New(length)`: an array of `length` holes, which read as `undefined`. -/
def Array_New (length : Nat) : List JsValue :=
  List.replicate length JsValue.undefined

/-- V8 `Array::Set(index, value)`; setting at or past the end grows the array. -/
def Array_Set (a : List JsValue) (index : Nat) (value : JsValue) : List JsValue :=
  if index < a.length then a.set index value
  else a ++ List.replicate (index - a.length) JsValue.undefined ++ [value]

/-- V8 `String::New(const uint16_t* data, int length)`: the `length` code units at `data`. -/
def String_New16 (data : Nat → Nat) (length : Nat) : JsValue :=
  JsValue.string16 ((List.range length).map data)

/-- A C++ exception in flight: one derived from `std::exception`, carrying `what()`,
or any other. -/
inductive CppException where
  | std (what : String) : CppException
  | other : CppException

/-- What a call `grid2utf(view, lines, key_order, resolution)` leaves behind: the two
vectors it was handed by reference and the exception it raised, if any. A line is the
`uint16_t` buffer an element of the `boost::ptr_vector<uint16_t>` points to, read by index. -/
structure Grid2Utf where
  lines : List (Nat → Nat)
  key_order : List String
  thrown : Option CppException

/-- The collaborators of the encode paths. `grid2utf` and `write_features` are the
templates of `js_grid_utils.hpp` (arguments: view, the vectors or the object handed over
by reference, and the resolution or the keys); `TOSTR` is the macro of `utils.hpp`
(the text of a value); `callbackThrows cb argv` tells whether the JavaScript function
`cb`, called with `argv`, leaves an exception behind. The feature writer is taken to
return normally. -/
structure Env where
  TOSTR : JsValue → String
  grid2utf : GridView → List (Nat → Nat) → List String → Nat → Grid2Utf
  write_features : GridView → List (String × JsValue) → List String → List (String × JsValue)
  callbackThrows : JsValue → List JsValue → Bool

/-- The request record `encode_grid_view_baton_t` (lines 250-261), `uv_work_t` apart. -/
structure encode_grid_view_baton_t where
  g : GridView
  format : String
  error : Bool
  error_name : String
  cb : JsValue
  lines : List (Nat → Nat)
  resolution : Nat
  add_features : Bool
  key_order : List String

/-- Observable steps of an encode. -/
inductive Event where
  | grid2utf (view : GridView) (resolution : Nat) : Event
  | write_features (view : GridView) (key_order : List String) : Event
  | call (cb : JsValue) (argv : List JsValue) : Event
  | fatalException : Event

/-- The runtime state the asynchronous path acts on: the reference count of
`uv_default_loop()`, the `refs_` count of the `GridView` wrapper (`ObjectWrap::Ref`),
the number of live `Persistent<Function>` handles and of live batons, the requests handed
to `uv_queue_work`, and the steps taken so far. -/
structure World where
  loop_refs : Nat
  refs_ : Nat
  handles : Nat
  batons : Nat
  queue : List encode_grid_view_baton_t
  trace : List Event

/-! ## Encoding: the two entry points -/

/-- Method `GridView::encodeSync`, lines 161-201: the defaults and the reading of the
arguments. An error is the exception handed to `ThrowException`; otherwise
`(format, resolution, add_features)`. -/
def encodeSync_args (env : Env) (args : List JsValue) :
    Except JsValue (String × Nat × Bool) := do
  -- defaults
  let mut format := "utf"
  let mut resolution := 4
  let mut add_features := true
  -- accept custom format
  if args.length ≥ 1 then
    if !(argAt args 0).IsString then
      throw (JsValue.typeError "first arg, 'format' must be a string")
    format := env.TOSTR (argAt args 0)
  -- options hash
  if args.length ≥ 2 then
    if !(argAt args 1).IsObject then
      throw (JsValue.typeError "optional second arg must be an options object")
    let options := argAt args 1
    if options.Has "resolution" then
      let bind_opt := options.Get "resolution"
      if !bind_opt.IsNumber then
        throw (JsValue.typeError "'resolution' must be an Integer")
      resolution := toUnsigned bind_opt.IntegerValue
    if options.Has "features" then
      let bind_opt := options.Get "features"
      if !bind_opt.IsBoolean then
        throw (JsValue.typeError "'features' must be an Boolean")
      add_features := bind_opt.BooleanValue
  return (format, resolution, add_features)

/-- Method `GridView::encodeSync` (lines 155-248): the outcome and the steps taken. -/
def encodeSync (env : Env) (g : GridView) (args : List JsValue) : Outcome × List Event :=
  match encodeSync_args env args with
  | Except.error e => (Outcome.threw e, [])
  | Except.ok (_, resolution, add_features) =>
    -- try
    let r := env.grid2utf g [] [] resolution
    let trace := [Event.grid2utf g resolution]
    match r.thrown with
    | some (CppException.std what) => (Outcome.threw (JsValue.error what), trace)
    | some CppException.other => (Outcome.uncaught, trace)
    | none =>
      let lines := r.lines
      let key_order := r.key_order
      -- convert key order to proper javascript array
      let keys_a := forEach key_order.length
        (fun i a => Array_Set a i (JsValue.string (key_order.getD i "")))
        (Array_New key_order.length)
      let grid_type := g
      -- gather feature data
      let feature_data : List (String × JsValue) := []
      let written :=
        if add_features then
          (env.write_features grid_type feature_data key_order,
            trace ++ [Event.write_features grid_type key_order])
        else (feature_data, trace)
      let feature_data := written.1
      let trace := written.2
      -- Create the return hash.
      let grid_array := Array_New 0
      if resolution = 0 then (Outcome.fault, trace)
      else
        let array_size := grid_type.width / resolution
        let grid_array := forEach lines.length
          (fun j a => Array_Set a j (String_New16 (lines.getD j (fun _ => 0)) array_size))
          grid_array
        let json := JsValue.object
          [("grid", JsValue.array grid_array), ("keys", JsValue.array keys_a),
            ("data", JsValue.object feature_data)]
        (Outcome.returned json, trace)

/-- Method `GridView::encode`, lines 270-316: the defaults, the reading of the arguments
and the callback check. An error is the exception handed to `ThrowException`; otherwise
`(format, resolution, add_features, callback)`. -/
def encode_args (env : Env) (args : List JsValue) :
    Except JsValue (String × Nat × Bool × JsValue) := do
  -- defaults
  let mut format := "utf"
  let mut resolution := 4
  let mut add_features := true
  -- accept custom format
  if args.length ≥ 1 then
    if !(argAt args 0).IsString then
      throw (JsValue.typeError "first arg, 'format' must be a string")
    format := env.TOSTR (argAt args 0)
  -- options hash
  if args.length ≥ 2 then
    if !(argAt args 1).IsObject then
      throw (JsValue.typeError "optional second arg must be an options object")
    let options := argAt args 1
    if options.Has "resolution" then
      let bind_opt := options.Get "resolution"
      if !bind_opt.IsNumber then
        throw (JsValue.typeError "'resolution' must be an Integer")
      resolution := toUnsigned bind_opt.IntegerValue
    if options.Has "features" then
      let bind_opt := options.Get "features"
      if !bind_opt.IsBoolean then
        throw (JsValue.typeError "'features' must be an Boolean")
      add_features := bind_opt.BooleanValue
  -- ensure callback is a function
  if !(argAt args ((args.length : Int) - 1)).IsFunction then
    throw (JsValue.typeError "last argument must be a callback function")
  let callback := argAt args ((args.length : Int) - 1)
  return (format, resolution, add_features, callback)

/-- Method `GridView::encode` (lines 264-330): the outcome and the runtime state after it. -/
def encode (env : Env) (g : GridView) (args : List JsValue) (world : World) :
    Outcome × World :=
  match encode_args env args with
  | Except.error e => (Outcome.threw e, world)
  | Except.ok (format, resolution, add_features, callback) =>
    let closure : encode_grid_view_baton_t :=
      { g := g, format := format, error := false, error_name := "", cb := callback,
        lines := [], resolution := resolution, add_features := add_features,
        key_order := [] }
    (Outcome.returned JsValue.undefined,
      { world with
        batons := world.batons + 1
        handles := world.handles + 1
        queue := world.queue ++ [closure]
        loop_refs := world.loop_refs + 1
        refs_ := world.refs_ + 1 })

/-- Work callback `GridView::EIO_Encode` (lines 332-354), run on a worker thread:
the baton after it and the steps taken. -/
def EIO_Encode (env : Env) (closure : encode_grid_view_baton_t) :
    encode_grid_view_baton_t × List Event :=
  let r := env.grid2utf closure.g closure.lines closure.key_order closure.resolution
  let closure := { closure with lines := r.lines, key_order := r.key_order }
  let trace := [Event.grid2utf closure.g closure.resolution]
  match r.thrown with
  | none => (closure, trace)
  | some (CppException.std what) =>
    ({ closure with error := true, error_name := what }, trace)
  | some CppException.other =>
    ({ closure with
        error := true
        error_name := "unknown exception happened when encoding grid: please file bug report" },
      trace)

/-- After-work callback `GridView::EIO_AfterEncode` (lines 356-412), run on the loop
thread; `none` when the division of line 391 has a zero divisor. `FatalException` is
followed on the path on which it returns (the process has an `uncaughtException` handler). -/
def EIO_AfterEncode (env : Env) (closure : encode_grid_view_baton_t) (world : World) :
    Option World := do
  let mut w := world
  let mut caught := false
  if closure.error then
    let argv := [JsValue.error closure.error_name]
    w := { w with trace := w.trace ++ [Event.call closure.cb argv] }
    caught := env.callbackThrows closure.cb argv
  else
    -- convert key order to proper javascript array
    let keys_a := forEach closure.key_order.length
      (fun i a => Array_Set a i (JsValue.string (closure.key_order.getD i "")))
      (Array_New closure.key_order.length)
    let grid_type := closure.g
    -- gather feature data
    let mut feature_data : List (String × JsValue) := []
    if closure.add_features then
      feature_data := env.write_features grid_type feature_data closure.key_order
      w := { w with trace := w.trace ++ [Event.write_features grid_type closure.key_order] }
    -- Create the return hash.
    let grid_array := Array_New closure.lines.length
    if closure.resolution = 0 then none
    let array_size := grid_type.width / closure.resolution
    let grid_array := forEach closure.lines.length
      (fun j a => Array_Set a j (String_New16 (closure.lines.getD j (fun _ => 0)) array_size))
      grid_array
    let json := JsValue.object
      [("grid", JsValue.array grid_array), ("keys", JsValue.array keys_a),
        ("data", JsValue.object feature_data)]
    let argv := [JsValue.null, json]
    w := { w with trace := w.trace ++ [Event.call closure.cb argv] }
    caught := env.callbackThrows closure.cb argv
  if caught then
    w := { w with trace := w.trace ++ [Event.fatalException] }
  w := { w with loop_refs := w.loop_refs - 1 }
  w := { w with refs_ := w.refs_ - 1 }
  w := { w with handles := w.handles - 1 }
  w := { w with batons := w.batons - 1 }
  return w

/-- What `uv_queue_work` arranges for a queued request: `EIO_Encode` on a worker thread,
then `EIO_AfterEncode` on the loop thread. -/
def completion (env : Env) (closure : encode_grid_view_baton_t) (world : World) :
    Option World :=
  let worked := EIO_Encode env closure
  EIO_AfterEncode env worked.1 { world with trace := world.trace ++ worked.2 }

/-- The callback invocations among the steps, in order. -/
def calls : List Event → List (JsValue × List JsValue)
  | [] => []
  | Event.call cb argv :: rest => (cb, argv) :: calls rest
  | _ :: rest => calls rest

/-- The invocations of the feature writer among the steps, in order. -/
def writerCalls : List Event → List (GridView × List String)
  | [] => []
  | Event.write_features view key_order :: rest => (view, key_order) :: writerCalls rest
  | _ :: rest => writerCalls rest

/-- Within the result object of an encode: its `grid`, `keys` and `data` members. -/
def resultParts : JsValue → Option (List JsValue × List JsValue × List (String × JsValue))
  | JsValue.object
      [("grid", JsValue.array grid), ("keys", JsValue.array keys), ("data", JsValue.object data)] =>
    some (grid, keys, data)
  | _ => none

/-- The call supplies a `resolution` option that is not a number. -/
def badResolution (args : List JsValue) : Prop :=
  2 ≤ args.length ∧ ∃ v, JsValue.lookupProp "resolution" (argAt args 1).ownProps = some v ∧
    v.IsNumber = false

/-- The call supplies a `features` option that is not a boolean. -/
def badFeatures (args : List JsValue) : Prop :=
  2 ≤ args.length ∧ ∃ v, JsValue.lookupProp "features" (argAt args 1).ownProps = some v ∧
    v.IsBoolean = false

/-- The last argument of the call is not a function (also: there is no argument). -/
def badCallback (args : List JsValue) : Prop :=
  (argAt args ((args.length : Int) - 1)).IsFunction = false

/-- The result object of an encode in closed form: one string of `width / resolution`
code units per line, the keys in order, and what the feature writer put into an empty
object (nothing when features are not asked for). -/
def encodeResult (env : Env) (g : GridView) (lines : List (Nat → Nat))
    (key_order : List String) (resolution : Nat) (add_features : Bool) : JsValue :=
  JsValue.object
    [("grid", JsValue.array (lines.map fun line => String_New16 line (g.width / resolution))),
      ("keys", JsValue.array (key_order.map JsValue.string)),
      ("data",
        JsValue.object (if add_features then env.write_features g [] key_order else []))]

/-- Every element of the `grid` member of a result object is a string of exactly `n`
16-bit code units. -/
def rowsHaveWidth (json : JsValue) (n : Nat) : Prop :=
  ∃ grid keys data, resultParts json = some (grid, keys, data) ∧
    ∀ row, row ∈ grid → ∃ units, row = JsValue.string16 units ∧ units.length = n

/-- The `data` member of a result object is the empty mapping. -/
def dataIsEmpty (json : JsValue) : Prop :=
  ∃ grid keys, resultParts json = some (grid, keys, [])

/-- The baton as `encode` fills it in (lines 318-325). -/
def newBaton (g : GridView) (format : String) (resolution : Nat) (add_features : Bool)
    (callback : JsValue) : encode_grid_view_baton_t :=
  { g := g, format := format, error := false, error_name := "", cb := callback,
    lines := [], resolution := resolution, add_features := add_features, key_order := [] }

/-- The message `EIO_Encode` records for an exception (lines 344-353). -/
def recordedMessage : CppException → String
  | CppException.std what => what
  | CppException.other =>
    "unknown exception happened when encoding grid: please file bug report"

/-- The call `encode(args)` on the view `g` in state `world` queues one request, and the
completion of that request ends in state `w2`. -/
def asyncRun (env : Env) (g : GridView) (args : List JsValue) (world w2 : World) : Prop :=
  ∃ w1 closure, encode env g args world = (Outcome.returned JsValue.undefined, w1) ∧
    w1.queue = world.queue ++ [closure] ∧ completion env closure w1 = some w2

/-- The call `encode(args)` on the view `g` in state `world` queues one request, and the
completion of that request invokes the callback `cb` exactly once, with `argv`. -/
def delivers (env : Env) (g : GridView) (args : List JsValue) (world : World)
    (cb : JsValue) (argv : List JsValue) : Prop :=
  ∃ w2, asyncRun env g args world w2 ∧ calls w2.trace = calls world.trace ++ [(cb, argv)]

/-! ## The legend encoder, from its specification -/

/-- What the legend encoder leaves open in its specification: the identifier that denotes
"no feature", the string key of a feature identifier, the codepoint of a legend index, and
the message of the failure at resolution 0. -/
structure LegendConfig where
  no_feature : Int
  label : Int → String
  codepoint : Nat → Nat
  zero_resolution : String

/-- Modelled from the spec: `node_mapnik::grid2utf` is defined in `js_grid_utils.hpp`, which
is not among the sources. Section 4.3: the output has `width / resolution` columns and
`height / resolution` rows (integer truncation); output cell `(ox, oy)` samples the pixel at
`(ox * resolution, oy * resolution)`; the legend is an insertion-ordered list of identifiers
seeded with the "no feature" identifier at index 0, a new identifier being appended at its
first occurrence in row-major order; a cell becomes the codepoint of its legend index; rows
are emitted top to bottom; `resolution == 0` is a failure and leaves no output. The key of
the sentinel is the empty string (section 8, scenario 1). -/
def grid2utf (cfg : LegendConfig) (view : GridView) (lines : List (Nat → Nat))
    (key_order : List String) (resolution : Nat) : Grid2Utf :=
  if resolution = 0 then
    { lines := lines, key_order := key_order,
      thrown := some (CppException.std cfg.zero_resolution) }
  else
    let columns := view.width / resolution
    let rows := view.height / resolution
    let scanned : List Int × List (List Nat) :=
      forEach rows
        (fun oy st =>
          let scannedRow : List Int × List Nat :=
            forEach columns
              (fun ox st2 =>
                let id := view.getRow (oy * resolution) (ox * resolution)
                let legend := if id ∈ st2.1 then st2.1 else st2.1 ++ [id]
                (legend, st2.2 ++ [cfg.codepoint (legend.indexOf id)]))
              (st.1, [])
          (scannedRow.1, st.2 ++ [scannedRow.2]))
        ([cfg.no_feature], [])
    { lines := lines ++ scanned.2.map (fun row i => row.getD i 0),
      key_order := key_order ++
        scanned.1.map (fun id => if id = cfg.no_feature then "" else cfg.label id),
      thrown := none }

/-- The collaborators with the legend encoder taken from its specification. -/
def specEnv (cfg : LegendConfig) (tostr : JsValue → String)
    (write_features :
      GridView → List (String × JsValue) → List String → List (String × JsValue))
    (callbackThrows : JsValue → List JsValue → Bool) : Env :=
  { TOSTR := tostr, grid2utf := grid2utf cfg, write_features := write_features,
    callbackThrows := callbackThrows }

/-- The legend encoder fails at resolution 0, whatever the view and the vectors. -/
def FailsAtZero (env : Env) : Prop :=
  ∀ view lines key_order, (env.grid2utf view lines key_order 0).thrown ≠ none

/-! ## Sample data -/

/-- A legend configuration: identifier 0 is "no feature", keys are decimal numerals,
codepoints start at 32. -/
def sampleConfig : LegendConfig :=
  { no_feature := 0, label := fun id => toString id, codepoint := fun i => i + 32,
    zero_resolution := "resolution must be positive" }

/-- Collaborators for the samples: the specified encoder, a feature writer that records
one entry per key, and a callback that does not throw. -/
def sampleEnv : Env :=
  specEnv sampleConfig
    (fun v => match v with
      | JsValue.string s => s
      | _ => "")
    (fun _ data keys => data ++ keys.map (fun k => (k, JsValue.object [])))
    (fun _ _ => false)

/-- An 8x4 view: identifier 7 in the left half, 9 in the right half. -/
def splitView : GridView :=
  ⟨8, 4, fun _ x => if x < 4 then 7 else 9, by decide, by decide⟩

/-- A synchronous call: `encodeSync("utf", {resolution: 4})`. -/
def sampleArgs : List JsValue :=
  [JsValue.string "utf", JsValue.object [("resolution", JsValue.number 4)]]

/-- A callback function. -/
def sampleCallback : JsValue :=
  JsValue.function 1 []

/-- An asynchronous call: `encode("utf", {resolution: 4}, callback)`. -/
def sampleAsyncArgs : List JsValue :=
  [JsValue.string "utf", JsValue.object [("resolution", JsValue.number 4)], sampleCallback]

/-- A synchronous call at resolution 0 with features asked for. -/
def zeroArgs : List JsValue :=
  [JsValue.string "utf",
    JsValue.object [("resolution", JsValue.number 0), ("features", JsValue.boolean true)]]

/-- An asynchronous call at resolution 0. -/
def zeroAsyncArgs : List JsValue :=
  [JsValue.string "utf", JsValue.object [("resolution", JsValue.number 0)], sampleCallback]

/-- A call without features: `encodeSync("utf", {resolution: 4, features: false})`. -/
def plainArgs : List JsValue :=
  [JsValue.string "utf",
    JsValue.object [("resolution", JsValue.number 4), ("features", JsValue.boolean false)]]

/-- The asynchronous call without features. -/
def plainAsyncArgs : List JsValue :=
  [JsValue.string "utf",
    JsValue.object [("resolution", JsValue.number 4), ("features", JsValue.boolean false)],
    sampleCallback]

/-- A runtime state with nothing pending. -/
def idleWorld : World :=
  { loop_refs := 0, refs_ := 0, handles := 0, batons := 0, queue := [], trace := [] }

/-! ## Loops -/

theorem forLoop_eq_none_iff {ρ : Type} (n : Nat) (body : Nat → Option ρ) :
    forLoop n body = none ↔ ∀ i, i < n → body i = none := by
  simp [forLoop]

theorem forLoop_eq_some {ρ : Type} {n : Nat} {body : Nat → Option ρ} {r : ρ}
    (h : forLoop n body = some r) : ∃ i, i < n ∧ body i = some r := by
  obtain ⟨i, hi, hb⟩ := List.exists_of_findSome?_eq_some h
  exact ⟨i, List.mem_range.mp hi, hb⟩

theorem forEach_succ {σ : Type} (n : Nat) (body : Nat → σ → σ) (init : σ) :
    forEach (n + 1) body init = body n (forEach n body init) := by
  simp [forEach, List.range_succ]

theorem forEach_Array_Set (f : Nat → JsValue) (m : Nat) (k : Nat) :
    forEach k (fun i a => Array_Set a i (f i)) (Array_New m) =
      (List.range k).map f ++ List.replicate (m - k) JsValue.undefined := by
  induction k with
  | zero => simp [forEach, Array_New]
  | succ k ih =>
    rw [forEach_succ, ih]
    unfold Array_Set
    by_cases hk : k < m
    · have hlen : k < ((List.range k).map f ++ List.replicate (m - k) JsValue.undefined).length := by
        simp; omega
      rw [if_pos hlen]
      obtain ⟨d, hd⟩ : ∃ d, m - k = d + 1 := ⟨m - k - 1, by omega⟩
      have hd2 : m - (k + 1) = d := by omega
      rw [hd, hd2, List.replicate_succ, List.range_succ, List.map_append]
      simp [List.set_append]
    · have hlen : ¬ k < ((List.range k).map f ++ List.replicate (m - k) JsValue.undefined).length := by
        simp; omega
      rw [if_neg hlen]
      have h0 : m - k = 0 := by omega
      have h1 : m - (k + 1) = 0 := by omega
      simp [h0, h1, List.range_succ]

theorem map_range_getD {α β : Type} (l : List α) (d : α) (f : α → β) :
    (List.range l.length).map (fun i => f (l.getD i d)) = l.map f := by
  apply List.ext_getElem
  · simp
  · intro i h1 h2
    simp at h1
    simp [h1]

theorem keys_loop (key_order : List String) :
    forEach key_order.length
        (fun i a => Array_Set a i (JsValue.string (key_order.getD i "")))
        (Array_New key_order.length) = key_order.map JsValue.string := by
  rw [forEach_Array_Set (fun i => JsValue.string (key_order.getD i "")), Nat.sub_self,
    List.replicate_zero, List.append_nil]
  exact map_range_getD key_order "" JsValue.string

theorem grid_loop (lines : List (Nat → Nat)) (array_size m : Nat) (hm : m ≤ lines.length) :
    forEach lines.length
        (fun j a => Array_Set a j (String_New16 (lines.getD j (fun _ => 0)) array_size))
        (Array_New m) = lines.map fun line => String_New16 line array_size := by
  rw [forEach_Array_Set (fun j => String_New16 (lines.getD j (fun _ => 0)) array_size),
    Nat.sub_eq_zero_of_le hm, List.replicate_zero, List.append_nil]
  exact map_range_getD lines (fun _ => 0) (fun line => String_New16 line array_size)


/-! ## Reading the arguments -/

theorem encodeSync_args_eq (env : Env) (args : List JsValue) :
    encodeSync_args env args =
      if 1 ≤ args.length ∧ (argAt args 0).IsString = false then
        Except.error (JsValue.typeError "first arg, 'format' must be a string")
      else if 2 ≤ args.length then
        if (argAt args 1).IsObject = false then
          Except.error (JsValue.typeError "optional second arg must be an options object")
        else if (argAt args 1).Has "resolution" = true ∧
            ((argAt args 1).Get "resolution").IsNumber = false then
          Except.error (JsValue.typeError "'resolution' must be an Integer")
        else if (argAt args 1).Has "features" = true ∧
            ((argAt args 1).Get "features").IsBoolean = false then
          Except.error (JsValue.typeError "'features' must be an Boolean")
        else
          Except.ok (env.TOSTR (argAt args 0),
            (if (argAt args 1).Has "resolution" = true
              then toUnsigned ((argAt args 1).Get "resolution").IntegerValue else 4),
            (if (argAt args 1).Has "features" = true
              then ((argAt args 1).Get "features").BooleanValue else true))
      else
        Except.ok ((if 1 ≤ args.length then env.TOSTR (argAt args 0) else "utf"), 4, true) := by
  unfold encodeSync_args
  by_cases h1 : 1 ≤ args.length <;> by_cases h2 : 2 ≤ args.length <;>
  cases h3 : (argAt args 0).IsString <;> cases h4 : (argAt args 1).IsObject <;>
  cases h5 : (argAt args 1).Has "resolution" <;>
  cases h6 : ((argAt args 1).Get "resolution").IsNumber <;>
  cases h7 : (argAt args 1).Has "features" <;>
  cases h8 : ((argAt args 1).Get "features").IsBoolean <;>
  simp [h1, h2, h3, h4, h5, h6, h7, h8, throw, throwThe, MonadExceptOf.throw, bind,
    Except.bind, pure, Except.pure, Functor.map, Except.map] <;> omega

theorem encode_args_eq (env : Env) (args : List JsValue) :
    encode_args env args =
      match encodeSync_args env args with
      | Except.error e => Except.error e
      | Except.ok (format, resolution, add_features) =>
        if (argAt args ((args.length : Int) - 1)).IsFunction = false then
          Except.error (JsValue.typeError "last argument must be a callback function")
        else
          Except.ok (format, resolution, add_features, argAt args ((args.length : Int) - 1)) := by
  unfold encode_args encodeSync_args
  by_cases h1 : 1 ≤ args.length <;> by_cases h2 : 2 ≤ args.length <;>
  cases h3 : (argAt args 0).IsString <;> cases h4 : (argAt args 1).IsObject <;>
  cases h5 : (argAt args 1).Has "resolution" <;>
  cases h6 : ((argAt args 1).Get "resolution").IsNumber <;>
  cases h7 : (argAt args 1).Has "features" <;>
  cases h8 : ((argAt args 1).Get "features").IsBoolean <;>
  cases h9 : (argAt args ((args.length : Int) - 1)).IsFunction <;>
  simp [h1, h2, h3, h4, h5, h6, h7, h8, h9, throw, throwThe, MonadExceptOf.throw, bind,
    Except.bind, pure, Except.pure, Functor.map, Except.map]


/-! ## The encode paths in closed form -/

theorem encodeSync_of_args (env : Env) (g : GridView) (args : List JsValue)
    (format : String) (resolution : Nat) (add_features : Bool)
    (h : encodeSync_args env args = Except.ok (format, resolution, add_features)) :
    encodeSync env g args =
      match (env.grid2utf g [] [] resolution).thrown with
      | some (CppException.std what) =>
        (Outcome.threw (JsValue.error what), [Event.grid2utf g resolution])
      | some CppException.other => (Outcome.uncaught, [Event.grid2utf g resolution])
      | none =>
        (if resolution = 0 then Outcome.fault
          else Outcome.returned (encodeResult env g (env.grid2utf g [] [] resolution).lines
            (env.grid2utf g [] [] resolution).key_order resolution add_features),
          Event.grid2utf g resolution ::
            (if add_features
              then [Event.write_features g (env.grid2utf g [] [] resolution).key_order]
              else [])) := by
  unfold encodeSync
  rw [h]
  simp only []
  cases hthrown : (env.grid2utf g [] [] resolution).thrown with
  | some e => cases e <;> rfl
  | none =>
    simp only [keys_loop, grid_loop _ _ 0 (Nat.zero_le _), encodeResult]
    by_cases hres : resolution = 0 <;> cases add_features <;> simp [hres]

theorem encodeSync_of_error (env : Env) (g : GridView) (args : List JsValue) (e : JsValue)
    (h : encodeSync_args env args = Except.error e) :
    encodeSync env g args = (Outcome.threw e, []) := by
  unfold encodeSync
  rw [h]

theorem EIO_Encode_eq (env : Env) (c : encode_grid_view_baton_t) :
    EIO_Encode env c =
      ({ c with
          lines := (env.grid2utf c.g c.lines c.key_order c.resolution).lines
          key_order := (env.grid2utf c.g c.lines c.key_order c.resolution).key_order
          error :=
            match (env.grid2utf c.g c.lines c.key_order c.resolution).thrown with
            | none => c.error
            | some _ => true
          error_name :=
            match (env.grid2utf c.g c.lines c.key_order c.resolution).thrown with
            | none => c.error_name
            | some (CppException.std what) => what
            | some CppException.other =>
              "unknown exception happened when encoding grid: please file bug report" },
        [Event.grid2utf c.g c.resolution]) := by
  unfold EIO_Encode
  simp only []
  cases hthrown : (env.grid2utf c.g c.lines c.key_order c.resolution).thrown with
  | some e => cases e <;> rfl
  | none => rfl

theorem EIO_AfterEncode_eq (env : Env) (c : encode_grid_view_baton_t) (w : World) :
    EIO_AfterEncode env c w =
      if c.error = true then
        some { loop_refs := w.loop_refs - 1, refs_ := w.refs_ - 1, handles := w.handles - 1,
               batons := w.batons - 1, queue := w.queue,
               trace := w.trace ++ Event.call c.cb [JsValue.error c.error_name] ::
                 (if env.callbackThrows c.cb [JsValue.error c.error_name] = true
                   then [Event.fatalException] else []) }
      else if c.resolution = 0 then none
      else
        some { loop_refs := w.loop_refs - 1, refs_ := w.refs_ - 1, handles := w.handles - 1,
               batons := w.batons - 1, queue := w.queue,
               trace := w.trace ++
                 (if c.add_features = true then [Event.write_features c.g c.key_order] else []) ++
                 Event.call c.cb
                   [JsValue.null, encodeResult env c.g c.lines c.key_order c.resolution c.add_features] ::
                 (if env.callbackThrows c.cb
                     [JsValue.null,
                       encodeResult env c.g c.lines c.key_order c.resolution c.add_features] = true
                   then [Event.fatalException] else []) } := by
  unfold EIO_AfterEncode
  simp only [keys_loop, grid_loop _ _ _ (Nat.le_refl _), encodeResult]
  cases h1 : c.error <;> cases h2 : c.add_features <;> by_cases h3 : c.resolution = 0 <;>
  simp [h3, bind, pure, Option.bind] <;> split <;> simp_all


theorem calls_append (a b : List Event) : calls (a ++ b) = calls a ++ calls b := by
  induction a with
  | nil => rfl
  | cons e rest ih => cases e <;> simp [calls, ih]

theorem writerCalls_append (a b : List Event) :
    writerCalls (a ++ b) = writerCalls a ++ writerCalls b := by
  induction a with
  | nil => rfl
  | cons e rest ih => cases e <;> simp [writerCalls, ih]

theorem encode_of_args (env : Env) (g : GridView) (args : List JsValue) (w : World)
    (format : String) (resolution : Nat) (add_features : Bool) (callback : JsValue)
    (h : encode_args env args = Except.ok (format, resolution, add_features, callback)) :
    encode env g args w =
      (Outcome.returned JsValue.undefined,
        { loop_refs := w.loop_refs + 1, refs_ := w.refs_ + 1, handles := w.handles + 1,
          batons := w.batons + 1,
          queue := w.queue ++ [newBaton g format resolution add_features callback],
          trace := w.trace }) := by
  unfold encode
  rw [h]
  rfl

theorem encode_of_error (env : Env) (g : GridView) (args : List JsValue) (w : World)
    (e : JsValue) (h : encode_args env args = Except.error e) :
    encode env g args w = (Outcome.threw e, w) := by
  unfold encode
  rw [h]

theorem encode_args_of_returned (env : Env) (g : GridView) (args : List JsValue)
    (w w1 : World) (v : JsValue) (h : encode env g args w = (Outcome.returned v, w1)) :
    ∃ format resolution add_features callback,
      encode_args env args = Except.ok (format, resolution, add_features, callback) := by
  cases hp : encode_args env args with
  | error e =>
    rw [encode_of_error env g args w e hp] at h
    simp at h
  | ok p =>
    obtain ⟨format, resolution, add_features, callback⟩ := p
    exact ⟨format, resolution, add_features, callback, rfl⟩

theorem completion_newBaton (env : Env) (g : GridView) (format : String) (resolution : Nat)
    (add_features : Bool) (callback : JsValue) (w : World) :
    completion env (newBaton g format resolution add_features callback) w =
      match (env.grid2utf g [] [] resolution).thrown with
      | some e =>
        some { loop_refs := w.loop_refs - 1, refs_ := w.refs_ - 1, handles := w.handles - 1,
               batons := w.batons - 1, queue := w.queue,
               trace := w.trace ++ [Event.grid2utf g resolution] ++
                 Event.call callback [JsValue.error (recordedMessage e)] ::
                 (if env.callbackThrows callback [JsValue.error (recordedMessage e)] = true
                   then [Event.fatalException] else []) }
      | none =>
        if resolution = 0 then none
        else
          some { loop_refs := w.loop_refs - 1, refs_ := w.refs_ - 1,
                 handles := w.handles - 1, batons := w.batons - 1, queue := w.queue,
                 trace := w.trace ++ [Event.grid2utf g resolution] ++
                   (if add_features = true
                     then [Event.write_features g (env.grid2utf g [] [] resolution).key_order]
                     else []) ++
                   Event.call callback
                     [JsValue.null,
                       encodeResult env g (env.grid2utf g [] [] resolution).lines
                         (env.grid2utf g [] [] resolution).key_order resolution add_features] ::
                   (if env.callbackThrows callback
                       [JsValue.null,
                         encodeResult env g (env.grid2utf g [] [] resolution).lines
                           (env.grid2utf g [] [] resolution).key_order resolution
                           add_features] = true
                     then [Event.fatalException] else []) } := by
  unfold completion
  rw [EIO_Encode_eq, EIO_AfterEncode_eq]
  simp only [newBaton]
  rcases Option.eq_none_or_eq_some (env.grid2utf g [] [] resolution).thrown with h | ⟨e, h⟩
  · simp [h]
  · cases e <;> simp [h, recordedMessage]


theorem calls_tail (cb : JsValue) (argv : List JsValue) (b : Bool) :
    calls (Event.call cb argv :: (if b = true then [Event.fatalException] else [])) =
      [(cb, argv)] := by
  cases b <;> rfl

theorem encode_args_ok (env : Env) (args : List JsValue) (format : String) (resolution : Nat)
    (add_features : Bool) (callback : JsValue)
    (h : encode_args env args = Except.ok (format, resolution, add_features, callback)) :
    encodeSync_args env args = Except.ok (format, resolution, add_features) ∧
      callback = argAt args ((args.length : Int) - 1) ∧ callback.IsFunction = true := by
  rw [encode_args_eq] at h
  cases hs : encodeSync_args env args with
  | error e => rw [hs] at h; simp at h
  | ok p =>
    obtain ⟨f, r, a⟩ := p
    rw [hs] at h
    simp only [] at h
    split at h
    · simp at h
    · rename_i hfun
      simp only [Except.ok.injEq, Prod.mk.injEq] at h
      obtain ⟨h1, h2, h3, h4⟩ := h
      subst h1 h2 h3
      refine ⟨rfl, h4.symm, ?_⟩
      rw [← h4]
      simpa using hfun

theorem asyncRun_iff (env : Env) (g : GridView) (args : List JsValue) (w : World)
    (format : String) (resolution : Nat) (add_features : Bool) (callback : JsValue)
    (h : encode_args env args = Except.ok (format, resolution, add_features, callback))
    (w2 : World) :
    asyncRun env g args w w2 ↔
      (match (env.grid2utf g [] [] resolution).thrown with
        | some e =>
          some { loop_refs := w.loop_refs, refs_ := w.refs_, handles := w.handles,
                 batons := w.batons,
                 queue := w.queue ++ [newBaton g format resolution add_features callback],
                 trace := w.trace ++ [Event.grid2utf g resolution] ++
                   Event.call callback [JsValue.error (recordedMessage e)] ::
                   (if env.callbackThrows callback [JsValue.error (recordedMessage e)] = true
                     then [Event.fatalException] else []) }
        | none =>
          if resolution = 0 then none
          else
            some { loop_refs := w.loop_refs, refs_ := w.refs_, handles := w.handles,
                   batons := w.batons,
                   queue := w.queue ++ [newBaton g format resolution add_features callback],
                   trace := w.trace ++ [Event.grid2utf g resolution] ++
                     (if add_features = true
                       then [Event.write_features g (env.grid2utf g [] [] resolution).key_order]
                       else []) ++
                     Event.call callback
                       [JsValue.null,
                         encodeResult env g (env.grid2utf g [] [] resolution).lines
                           (env.grid2utf g [] [] resolution).key_order resolution
                           add_features] ::
                     (if env.callbackThrows callback
                         [JsValue.null,
                           encodeResult env g (env.grid2utf g [] [] resolution).lines
                             (env.grid2utf g [] [] resolution).key_order resolution
                             add_features] = true
                       then [Event.fatalException] else []) }) = some w2 := by
  unfold asyncRun
  rw [encode_of_args env g args w format resolution add_features callback h]
  constructor
  · rintro ⟨w1, closure, hw1, hq, hc⟩
    simp only [Prod.mk.injEq, true_and] at hw1
    subst hw1
    simp only [List.append_cancel_left_eq, List.cons.injEq, and_true] at hq
    subst hq
    rw [completion_newBaton] at hc
    simpa using hc
  · intro hc
    refine ⟨_, newBaton g format resolution add_features callback, rfl, rfl, ?_⟩
    rw [completion_newBaton]
    simpa using hc

theorem delivers_iff (env : Env) (g : GridView) (args : List JsValue) (w : World)
    (format : String) (resolution : Nat) (add_features : Bool) (callback : JsValue)
    (h : encode_args env args = Except.ok (format, resolution, add_features, callback))
    (cb : JsValue) (argv : List JsValue) :
    delivers env g args w cb argv ↔
      cb = callback ∧
        ((∃ e, (env.grid2utf g [] [] resolution).thrown = some e ∧
            argv = [JsValue.error (recordedMessage e)]) ∨
          ((env.grid2utf g [] [] resolution).thrown = none ∧ resolution ≠ 0 ∧
            argv = [JsValue.null,
              encodeResult env g (env.grid2utf g [] [] resolution).lines
                (env.grid2utf g [] [] resolution).key_order resolution add_features])) := by
  unfold delivers
  simp only [asyncRun_iff env g args w format resolution add_features callback h]
  rcases Option.eq_none_or_eq_some (env.grid2utf g [] [] resolution).thrown with ht | ⟨e, ht⟩
  · rw [ht]
    by_cases hres : resolution = 0
    · simp [hres]
    · simp only [if_neg hres, Option.some.injEq]
      constructor
      · rintro ⟨w2, hw2, hcalls⟩
        subst hw2
        simp only [calls_append, calls_tail] at hcalls
        cases add_features <;> simp [calls] at hcalls <;>
          exact ⟨hcalls.1.symm, Or.inr ⟨trivial, hres, hcalls.2.symm⟩⟩
      · rintro ⟨hcb, hcase⟩
        rcases hcase with ⟨e, he, _⟩ | ⟨_, _, hargv⟩
        · exact absurd he (by simp)
        · refine ⟨_, rfl, ?_⟩
          simp only [calls_append, calls_tail, hargv, hcb]
          cases add_features <;> simp [calls]
  · rw [ht]
    simp only [Option.some.injEq]
    constructor
    · rintro ⟨w2, hw2, hcalls⟩
      subst hw2
      simp only [calls_append, calls_tail] at hcalls
      simp [calls] at hcalls
      exact ⟨hcalls.1.symm, Or.inl ⟨e, rfl, hcalls.2.symm⟩⟩
    · rintro ⟨hcb, hcase⟩
      rcases hcase with ⟨e2, he, hargv⟩ | ⟨hn, _, _⟩
      · subst he
        refine ⟨_, rfl, ?_⟩
        simp only [calls_append, calls_tail, hargv, hcb]
        simp [calls]
      · exact absurd hn (by simp)


theorem lookup_has_get (o : JsValue) (key : String) (v : JsValue)
    (h : JsValue.lookupProp key o.ownProps = some v) :
    o.Has key = true ∧ o.Get key = v ∧ o.IsObject = true := by
  refine ⟨by simp [JsValue.Has, h], by simp [JsValue.Get, h], ?_⟩
  cases o <;> simp [JsValue.ownProps, JsValue.lookupProp] at h <;> rfl

theorem encodeSync_args_bad (env : Env) (args : List JsValue)
    (h : badResolution args ∨ badFeatures args) :
    ∃ msg, encodeSync_args env args = Except.error (JsValue.typeError msg) := by
  rw [encodeSync_args_eq]
  rcases h with ⟨hlen, v, hv, hnum⟩ | ⟨hlen, v, hv, hbool⟩
  · obtain ⟨hhas, hget, hobj⟩ := lookup_has_get _ _ _ hv
    split_ifs <;> simp_all
  · obtain ⟨hhas, hget, hobj⟩ := lookup_has_get _ _ _ hv
    split_ifs <;> simp_all

theorem encode_args_bad (env : Env) (args : List JsValue)
    (h : badResolution args ∨ badFeatures args ∨ badCallback args) :
    ∃ msg, encode_args env args = Except.error (JsValue.typeError msg) := by
  rw [encode_args_eq]
  rcases h with h | h | h
  · obtain ⟨msg, hm⟩ := encodeSync_args_bad env args (Or.inl h)
    exact ⟨msg, by rw [hm]⟩
  · obtain ⟨msg, hm⟩ := encodeSync_args_bad env args (Or.inr h)
    exact ⟨msg, by rw [hm]⟩
  · unfold badCallback at h
    cases hs : encodeSync_args env args with
    | error e =>
      rw [encodeSync_args_eq] at hs
      split_ifs at hs <;> simp at hs <;> exact ⟨_, by rw [← hs]⟩
    | ok p =>
      obtain ⟨f, r, a⟩ := p
      simp [h]


theorem specEnv_failsAtZero (cfg : LegendConfig) (tostr : JsValue → String)
    (write_features :
      GridView → List (String × JsValue) → List String → List (String × JsValue))
    (callbackThrows : JsValue → List JsValue → Bool) :
    FailsAtZero (specEnv cfg tostr write_features callbackThrows) := by
  intro view lines key_order
  simp [specEnv, grid2utf]


/-! ## The sample calls -/

theorem sampleArgs_read : encodeSync_args sampleEnv sampleArgs = Except.ok ("utf", 4, true) := by
  rfl

theorem sampleAsyncArgs_read :
    encode_args sampleEnv sampleAsyncArgs = Except.ok ("utf", 4, true, sampleCallback) := by
  rfl

theorem zeroArgs_read : encodeSync_args sampleEnv zeroArgs = Except.ok ("utf", 0, true) := by
  rfl

theorem zeroAsyncArgs_read :
    encode_args sampleEnv zeroAsyncArgs = Except.ok ("utf", 0, true, sampleCallback) := by
  rfl

theorem plainArgs_read : encodeSync_args sampleEnv plainArgs = Except.ok ("utf", 4, false) := by
  rfl

theorem plainAsyncArgs_read :
    encode_args sampleEnv plainAsyncArgs = Except.ok ("utf", 4, false, sampleCallback) := by
  rfl

theorem sample_encoder_ok : (sampleEnv.grid2utf splitView [] [] 4).thrown = none := by
  rfl


theorem rowsHaveWidth_encodeResult (env : Env) (g : GridView) (lines : List (Nat → Nat))
    (key_order : List String) (resolution : Nat) (add_features : Bool) :
    rowsHaveWidth (encodeResult env g lines key_order resolution add_features)
      (g.width / resolution) := by
  refine ⟨_, _, _, rfl, ?_⟩
  intro row hrow
  obtain ⟨line, _, hline⟩ := List.mem_map.mp hrow
  exact ⟨_, hline.symm, by simp⟩

theorem dataIsEmpty_encodeResult (env : Env) (g : GridView) (lines : List (Nat → Nat))
    (key_order : List String) (resolution : Nat) :
    dataIsEmpty (encodeResult env g lines key_order resolution false) :=
  ⟨_, _, rfl⟩


theorem writerCalls_tail (cb : JsValue) (argv : List JsValue) (b : Bool) :
    writerCalls (Event.call cb argv :: (if b = true then [Event.fatalException] else [])) =
      [] := by
  cases b <;> rfl

theorem writerCalls_fatal (b : Bool) :
    writerCalls (if b = true then [Event.fatalException] else []) = [] := by
  cases b <;> rfl

/-- The parsed features flag is `false` exactly when the options object carries
`features: false`. -/
theorem add_features_false_iff (env : Env) (args : List JsValue) (format : String)
    (resolution : Nat) (add_features : Bool)
    (h : encodeSync_args env args = Except.ok (format, resolution, add_features)) :
    add_features = false ↔
      2 ≤ args.length ∧
        JsValue.lookupProp "features" (argAt args 1).ownProps = some (JsValue.boolean false) := by
  rw [encodeSync_args_eq] at h
  by_cases h2 : 2 ≤ args.length
  · cases hl : JsValue.lookupProp "features" (argAt args 1).ownProps with
    | none =>
      have hhas : (argAt args 1).Has "features" = false := by simp [JsValue.Has, hl]
      simp only [hhas] at h
      split_ifs at h <;> simp_all
    | some v =>
      have hhas : (argAt args 1).Has "features" = true := by simp [JsValue.Has, hl]
      have hget : (argAt args 1).Get "features" = v := by simp [JsValue.Get, hl]
      simp only [hhas, hget] at h
      split_ifs at h <;> cases v <;>
        simp_all [JsValue.IsBoolean, JsValue.BooleanValue]
  · split_ifs at h <;> simp_all


/-! ## Point queries -/

/-- The scan of `isSolid` either runs to its end or returns `false`. -/
theorem isSolid_cases (view : GridView) :
    isSolid view = Outcome.returned (JsValue.boolean true) ∨
      isSolid view = Outcome.returned (JsValue.boolean false) := by
  unfold isSolid
  simp only []
  split
  · rename_i r hr
    right
    split at hr
    · obtain ⟨y, _, hy⟩ := forLoop_eq_some hr
      obtain ⟨x, _, hx⟩ := forLoop_eq_some hy
      split at hx
      · exact (Option.some.inj hx).symm
      · exact absurd hx (by simp)
    · exact absurd hr (by simp)
  · left; rfl

/-- C1. `isSolid` returns `true` exactly when every pixel `(x, y)` with `x < width()`
and `y < height()` equals pixel `(0, 0)`; it always returns a boolean, it returns `true`
for every view with `width() == 0` or `height() == 0`, and `false` as soon as one pixel
of the view differs from pixel `(0, 0)`. -/
theorem isSolid_spec (view : GridView) :
    (isSolid view = Outcome.returned (JsValue.boolean true) ↔
        ∀ x y, x < view.width → y < view.height → view.getRow y x = view.getRow 0 0) ∧
    (isSolid view = Outcome.returned (JsValue.boolean true) ∨
        isSolid view = Outcome.returned (JsValue.boolean false)) ∧
    (view.width = 0 ∨ view.height = 0 →
        isSolid view = Outcome.returned (JsValue.boolean true)) ∧
    ((∃ x y, x < view.width ∧ y < view.height ∧ view.getRow y x ≠ view.getRow 0 0) →
        isSolid view = Outcome.returned (JsValue.boolean false)) := by
  have hiff : isSolid view = Outcome.returned (JsValue.boolean true) ↔
      ∀ x y, x < view.width → y < view.height → view.getRow y x = view.getRow 0 0 := by
    constructor
    · intro h x y hx hy
      by_contra hne
      have hpos : view.width > 0 ∧ view.height > 0 := ⟨by omega, by omega⟩
      have hinner : forLoop view.width (fun x =>
          if view.getRow 0 0 ≠ view.getRow y x
          then some (Outcome.returned (JsValue.boolean false)) else none) ≠ none := by
        intro hn
        have := (forLoop_eq_none_iff _ _).mp hn x hx
        simp [Ne.symm hne] at this
      have houter : forLoop view.height (fun y => forLoop view.width (fun x =>
          if view.getRow 0 0 ≠ view.getRow y x
          then some (Outcome.returned (JsValue.boolean false)) else none)) ≠ none := by
        intro hn
        exact hinner ((forLoop_eq_none_iff _ _).mp hn y hy)
      unfold isSolid at h
      simp only [] at h
      rw [if_pos hpos] at h
      split at h
      · rename_i r hr
        obtain ⟨y2, _, hy2⟩ := forLoop_eq_some hr
        obtain ⟨x2, _, hx2⟩ := forLoop_eq_some hy2
        split at hx2
        · rw [← Option.some.inj hx2] at h
          simp at h
        · exact absurd hx2 (by simp)
      · rename_i hnone
        exact houter hnone
    · intro h
      unfold isSolid
      simp only []
      have hscan : (if view.width > 0 ∧ view.height > 0 then
          forLoop view.height (fun y => forLoop view.width (fun x =>
            if view.getRow 0 0 ≠ view.getRow y x
            then some (Outcome.returned (JsValue.boolean false)) else none))
          else none) = none := by
        split
        · rw [forLoop_eq_none_iff]
          intro y hy
          rw [forLoop_eq_none_iff]
          intro x hx
          simp [h x y hx hy]
        · rfl
      rw [hscan]
  refine ⟨hiff, isSolid_cases view, ?_, ?_⟩
  · intro h0
    rw [hiff]
    intro x y hx hy
    omega
  · rintro ⟨x, y, hx, hy, hne⟩
    rcases isSolid_cases view with ht | hf
    · exact absurd ((hiff.mp ht) x y hx hy) hne
    · exact hf

theorem toUnsigned_of_lt (n : Nat) (h : n < 4294967296) : toUnsigned (n : Int) = n := by
  unfold toUnsigned
  omega

/-- With two numbers, `getPixel` looks up the pixel at the converted coordinates when
they lie in the view and returns `undefined` otherwise. -/
theorem getPixel_numbers (view : GridView) (vx vy : Int) (rest : List JsValue) :
    getPixel view (JsValue.number vx :: JsValue.number vy :: rest) =
      if toUnsigned vx < view.width ∧ toUnsigned vy < view.height then
        Outcome.returned (JsValue.number (view.getRow (toUnsigned vy) (toUnsigned vx)))
      else Outcome.returned JsValue.undefined := by
  simp [getPixel, argAt, JsValue.IsNumber, JsValue.IntegerValue]

/-- C9. For coordinates `x < width()` and `y < height()`, `getPixel` returns the feature
identifier stored at column `x` of row `y` of the view, not `undefined`. -/
theorem getPixel_in_view (view : GridView) (x y : Nat) (rest : List JsValue)
    (hx : x < view.width) (hy : y < view.height) :
    getPixel view (JsValue.number x :: JsValue.number y :: rest) =
      Outcome.returned (JsValue.number (view.getRow y x)) := by
  have hx2 : toUnsigned (x : Int) = x := toUnsigned_of_lt x (lt_trans hx view.width_lt)
  have hy2 : toUnsigned (y : Int) = y := toUnsigned_of_lt y (lt_trans hy view.height_lt)
  rw [getPixel_numbers, hx2, hy2, if_pos ⟨hx, hy⟩]

theorem getPixel_in_view_witness :
    5 < splitView.width ∧ 2 < splitView.height ∧
      getPixel splitView [JsValue.number 5, JsValue.number 2] =
        Outcome.returned (JsValue.number 9) :=
  ⟨by decide, by decide, getPixel_in_view splitView 5 2 [] (by decide) (by decide)⟩

/-- C2. The claim asks for `undefined` whenever the received `x` is at least `width()`.
On the 1x1 view the call `getPixel(4294967296, 0)` has `x >= width()`, the conversion to
`unsigned` turns `x` into 0, and the call returns the pixel at `(0, 0)`. -/
theorem getPixel_wraps_modulo_two_pow_32 :
    (onePixelView.width : Int) ≤ 4294967296 ∧
      getPixel onePixelView [JsValue.number 4294967296, JsValue.number 0] =
        Outcome.returned (JsValue.number 7) :=
  ⟨by decide, by rfl⟩

/-- Out-of-view coordinates that fit `unsigned` do give `undefined`. -/
theorem getPixel_out_of_view (view : GridView) (x y : Nat) (rest : List JsValue)
    (hx : x < 4294967296) (hy : y < 4294967296)
    (hout : view.width ≤ x ∨ view.height ≤ y) :
    getPixel view (JsValue.number x :: JsValue.number y :: rest) =
      Outcome.returned JsValue.undefined := by
  have hx2 : toUnsigned (x : Int) = x := toUnsigned_of_lt x hx
  have hy2 : toUnsigned (y : Int) = y := toUnsigned_of_lt y hy
  have hnot : ¬ (x < view.width ∧ y < view.height) := by omega
  rw [getPixel_numbers, hx2, hy2, if_neg hnot]

theorem isSolid_spec_witness :
    isSolid onePixelView = Outcome.returned (JsValue.boolean true) ∧
      isSolid splitView = Outcome.returned (JsValue.boolean false) :=
  ⟨(isSolid_spec onePixelView).1.mpr (fun x y hx hy => by
      simp [onePixelView]),
   (isSolid_spec splitView).2.2.2 ⟨4, 0, by decide, by decide, by decide⟩⟩


/-! ## Encoding -/

/-- C7. A call whose `resolution` option is not a number or whose `features` option is
not a boolean fails in `encodeSync` with a `TypeError` before any step is taken (the
legend encoder is not run); in `encode` such a call, and any call whose last argument is
not a function, fails with a `TypeError` and leaves the runtime state as it was: no
request is queued and no callback is invoked. -/
theorem invalid_arguments_fail_synchronously (env : Env) (g : GridView)
    (args : List JsValue) (w : World) :
    (badResolution args ∨ badFeatures args →
      ∃ msg, encodeSync env g args = (Outcome.threw (JsValue.typeError msg), [])) ∧
    (badResolution args ∨ badFeatures args ∨ badCallback args →
      ∃ msg, encode env g args w = (Outcome.threw (JsValue.typeError msg), w)) := by
  constructor
  · intro h
    obtain ⟨msg, hm⟩ := encodeSync_args_bad env args h
    exact ⟨msg, encodeSync_of_error env g args _ hm⟩
  · intro h
    obtain ⟨msg, hm⟩ := encode_args_bad env args h
    exact ⟨msg, encode_of_error env g args w _ hm⟩


theorem invalid_arguments_fail_synchronously_witness :
    (∃ msg, encodeSync sampleEnv splitView
        [JsValue.string "utf", JsValue.object [("resolution", JsValue.string "4")]] =
          (Outcome.threw (JsValue.typeError msg), [])) ∧
    (∃ msg, encode sampleEnv splitView
        [JsValue.string "utf", JsValue.object [("features", JsValue.number 1)],
          sampleCallback] idleWorld =
          (Outcome.threw (JsValue.typeError msg), idleWorld)) ∧
    (∃ msg, encode sampleEnv splitView [JsValue.string "utf", JsValue.object []] idleWorld =
          (Outcome.threw (JsValue.typeError msg), idleWorld)) :=
  ⟨(invalid_arguments_fail_synchronously sampleEnv splitView
      [JsValue.string "utf", JsValue.object [("resolution", JsValue.string "4")]] idleWorld).1
      (Or.inl ⟨by decide, JsValue.string "4", by rfl, by rfl⟩),
   (invalid_arguments_fail_synchronously sampleEnv splitView
      [JsValue.string "utf", JsValue.object [("features", JsValue.number 1)],
        sampleCallback] idleWorld).2
      (Or.inr (Or.inl ⟨by decide, JsValue.number 1, by rfl, by rfl⟩)),
   (invalid_arguments_fail_synchronously sampleEnv splitView
      [JsValue.string "utf", JsValue.object []] idleWorld).2
      (Or.inr (Or.inr (by rfl)))⟩

/-- C3. For every `encode` call that passed argument validation (it returned after
queueing its request), given a legend encoder that fails at resolution 0, the completion
of the request invokes the callback (the last argument) exactly once: with the single argument
`Error(error_name)` when the worker recorded an error, and with `(null, result)` when it
did not, in which case the encoder did not throw and the result is built from the lines
and keys it returned. -/
theorem callback_invoked_exactly_once (env : Env) (hzero : FailsAtZero env) (g : GridView)
    (args : List JsValue) (w w1 : World)
    (hvalid : encode env g args w = (Outcome.returned JsValue.undefined, w1)) :
    ∃ closure w2, w1.queue = w.queue ++ [closure] ∧
      closure.cb = argAt args ((args.length : Int) - 1) ∧
      completion env closure w1 = some w2 ∧
      ((EIO_Encode env closure).1.error = true →
        calls w2.trace = calls w1.trace ++
          [(closure.cb, [JsValue.error (EIO_Encode env closure).1.error_name])]) ∧
      ((EIO_Encode env closure).1.error = false →
        (env.grid2utf g [] [] closure.resolution).thrown = none ∧
        calls w2.trace = calls w1.trace ++
          [(closure.cb, [JsValue.null,
            encodeResult env g (env.grid2utf g [] [] closure.resolution).lines
              (env.grid2utf g [] [] closure.resolution).key_order closure.resolution
              closure.add_features])]) := by
  obtain ⟨format, resolution, add_features, callback, hp⟩ :=
    encode_args_of_returned env g args w w1 _ hvalid
  rw [encode_of_args env g args w format resolution add_features callback hp] at hvalid
  simp only [Prod.mk.injEq, true_and] at hvalid
  subst hvalid
  refine ⟨newBaton g format resolution add_features callback, ?_⟩
  rw [completion_newBaton, EIO_Encode_eq]
  simp only [newBaton]
  rcases Option.eq_none_or_eq_some (env.grid2utf g [] [] resolution).thrown with ht | ⟨e, ht⟩
  · have hres : resolution ≠ 0 := by
      intro h0
      subst h0
      exact hzero g [] [] ht
    rw [ht]
    simp only [if_neg hres]
    refine ⟨_, trivial, (encode_args_ok env args _ _ _ _ hp).2.1, rfl, ?_, ?_⟩
    · intro h; simp at h
    · intro _
      refine ⟨trivial, ?_⟩
      simp only [calls_append, calls_tail]
      cases add_features <;> simp [calls]
  · rw [ht]
    refine ⟨_, trivial, (encode_args_ok env args _ _ _ _ hp).2.1, rfl, ?_, ?_⟩
    · intro _
      simp only [calls_append, calls_tail]
      cases e <;> simp [calls, recordedMessage]
    · intro h; simp at h

theorem callback_invoked_exactly_once_witness :
    FailsAtZero sampleEnv ∧
      encode sampleEnv splitView sampleAsyncArgs idleWorld =
        (Outcome.returned JsValue.undefined,
          (encode sampleEnv splitView sampleAsyncArgs idleWorld).2) ∧
      ∃ closure w2,
        (encode sampleEnv splitView sampleAsyncArgs idleWorld).2.queue =
          idleWorld.queue ++ [closure] ∧
        closure.cb = argAt sampleAsyncArgs ((sampleAsyncArgs.length : Int) - 1) ∧
        completion sampleEnv closure (encode sampleEnv splitView sampleAsyncArgs idleWorld).2 =
          some w2 ∧
        ((EIO_Encode sampleEnv closure).1.error = true →
          calls w2.trace =
            calls (encode sampleEnv splitView sampleAsyncArgs idleWorld).2.trace ++
              [(closure.cb, [JsValue.error (EIO_Encode sampleEnv closure).1.error_name])]) ∧
        ((EIO_Encode sampleEnv closure).1.error = false →
          (sampleEnv.grid2utf splitView [] [] closure.resolution).thrown = none ∧
          calls w2.trace =
            calls (encode sampleEnv splitView sampleAsyncArgs idleWorld).2.trace ++
              [(closure.cb, [JsValue.null,
                encodeResult sampleEnv splitView
                  (sampleEnv.grid2utf splitView [] [] closure.resolution).lines
                  (sampleEnv.grid2utf splitView [] [] closure.resolution).key_order
                  closure.resolution closure.add_features])]) :=
  ⟨specEnv_failsAtZero _ _ _ _, rfl,
    callback_invoked_exactly_once sampleEnv (specEnv_failsAtZero _ _ _ _) splitView
      sampleAsyncArgs idleWorld _ rfl⟩


/-- C10. For every `encode` call that queued its request, given a legend encoder that
fails at resolution 0: the call took one reference each on the event loop, on the
`GridView` wrapper, on a persistent callback handle and on a baton, and the completion of
the request, whether the encode succeeded or failed, releases each of them exactly once,
so that all four counts are back at their values before the call. -/
theorem references_released_once (env : Env) (hzero : FailsAtZero env) (g : GridView)
    (args : List JsValue) (w w1 : World)
    (hqueued : encode env g args w = (Outcome.returned JsValue.undefined, w1)) :
    ∃ closure w2, w1.queue = w.queue ++ [closure] ∧
      (w1.loop_refs = w.loop_refs + 1 ∧ w1.refs_ = w.refs_ + 1 ∧
        w1.handles = w.handles + 1 ∧ w1.batons = w.batons + 1) ∧
      completion env closure w1 = some w2 ∧
      (w2.loop_refs + 1 = w1.loop_refs ∧ w2.refs_ + 1 = w1.refs_ ∧
        w2.handles + 1 = w1.handles ∧ w2.batons + 1 = w1.batons) ∧
      (w2.loop_refs = w.loop_refs ∧ w2.refs_ = w.refs_ ∧
        w2.handles = w.handles ∧ w2.batons = w.batons) := by
  obtain ⟨format, resolution, add_features, callback, hp⟩ :=
    encode_args_of_returned env g args w w1 _ hqueued
  rw [encode_of_args env g args w format resolution add_features callback hp] at hqueued
  simp only [Prod.mk.injEq, true_and] at hqueued
  subst hqueued
  refine ⟨newBaton g format resolution add_features callback, ?_⟩
  rw [completion_newBaton]
  rcases Option.eq_none_or_eq_some (env.grid2utf g [] [] resolution).thrown with ht | ⟨e, ht⟩
  · have hres : resolution ≠ 0 := by
      intro h0
      subst h0
      exact hzero g [] [] ht
    rw [ht]
    simp only [if_neg hres]
    exact ⟨_, trivial, ⟨trivial, trivial, trivial, trivial⟩, rfl, by simp, by simp⟩
  · rw [ht]
    exact ⟨_, rfl, ⟨rfl, rfl, rfl, rfl⟩, rfl, by simp, by simp⟩

theorem references_released_once_witness :
    FailsAtZero sampleEnv ∧
      encode sampleEnv splitView zeroAsyncArgs idleWorld =
        (Outcome.returned JsValue.undefined,
          (encode sampleEnv splitView zeroAsyncArgs idleWorld).2) ∧
      ∃ closure w2,
        (encode sampleEnv splitView zeroAsyncArgs idleWorld).2.queue =
          idleWorld.queue ++ [closure] ∧
        ((encode sampleEnv splitView zeroAsyncArgs idleWorld).2.loop_refs =
            idleWorld.loop_refs + 1 ∧
          (encode sampleEnv splitView zeroAsyncArgs idleWorld).2.refs_ = idleWorld.refs_ + 1 ∧
          (encode sampleEnv splitView zeroAsyncArgs idleWorld).2.handles =
            idleWorld.handles + 1 ∧
          (encode sampleEnv splitView zeroAsyncArgs idleWorld).2.batons =
            idleWorld.batons + 1) ∧
        completion sampleEnv closure (encode sampleEnv splitView zeroAsyncArgs idleWorld).2 =
          some w2 ∧
        (w2.loop_refs + 1 = (encode sampleEnv splitView zeroAsyncArgs idleWorld).2.loop_refs ∧
          w2.refs_ + 1 = (encode sampleEnv splitView zeroAsyncArgs idleWorld).2.refs_ ∧
          w2.handles + 1 = (encode sampleEnv splitView zeroAsyncArgs idleWorld).2.handles ∧
          w2.batons + 1 = (encode sampleEnv splitView zeroAsyncArgs idleWorld).2.batons) ∧
        (w2.loop_refs = idleWorld.loop_refs ∧ w2.refs_ = idleWorld.refs_ ∧
          w2.handles = idleWorld.handles ∧ w2.batons = idleWorld.batons) :=
  ⟨specEnv_failsAtZero _ _ _ _, rfl,
    references_released_once sampleEnv (specEnv_failsAtZero _ _ _ _) splitView
      zeroAsyncArgs idleWorld _ rfl⟩

/-- The synchronous path returns an object exactly when the asynchronous path hands the
same object to its callback. -/
theorem sync_returns_iff_async_delivers (env : Env) (g : GridView)
    (args_sync args_async : List JsValue) (w : World) (format format2 : String)
    (resolution : Nat) (add_features : Bool) (callback : JsValue)
    (hsync : encodeSync_args env args_sync = Except.ok (format, resolution, add_features))
    (hasync : encode_args env args_async =
      Except.ok (format2, resolution, add_features, callback))
    (json : JsValue) :
    (encodeSync env g args_sync).1 = Outcome.returned json ↔
      delivers env g args_async w callback [JsValue.null, json] := by
  rw [encodeSync_of_args env g args_sync format resolution add_features hsync,
    delivers_iff env g args_async w format2 resolution add_features callback hasync]
  rcases Option.eq_none_or_eq_some (env.grid2utf g [] [] resolution).thrown with ht | ⟨e, ht⟩
  · rw [ht]
    by_cases hres : resolution = 0
    · simp [hres]
    · simp only [if_neg hres, Outcome.returned.injEq]
      constructor
      · intro h
        exact ⟨trivial, Or.inr ⟨trivial, hres, by rw [h]⟩⟩
      · rintro ⟨_, ⟨e, he, _⟩ | ⟨_, _, h⟩⟩
        · exact absurd he (by simp)
        · simp only [List.cons.injEq, and_true, true_and] at h
          exact h.symm
  · rw [ht]
    cases e <;> simp

/-- C4. For every view, resolution and features flag, with the same collaborators on
both paths: `encodeSync` returns an object `json` exactly when `encode` hands its callback
`(null, json)`, the very same object; and when the legend encoder succeeds (at a
resolution that is not 0) both do so, with an object whose members are `grid`, `keys`
and `data`. -/
theorem sync_async_parity (env : Env) (g : GridView) (args_sync args_async : List JsValue)
    (w : World) (format format2 : String) (resolution : Nat) (add_features : Bool)
    (callback : JsValue)
    (hsync : encodeSync_args env args_sync = Except.ok (format, resolution, add_features))
    (hasync : encode_args env args_async =
      Except.ok (format2, resolution, add_features, callback)) :
    (∀ json, (encodeSync env g args_sync).1 = Outcome.returned json ↔
      delivers env g args_async w callback [JsValue.null, json]) ∧
    (resolution ≠ 0 → (env.grid2utf g [] [] resolution).thrown = none →
      ∃ json, (encodeSync env g args_sync).1 = Outcome.returned json ∧
        delivers env g args_async w callback [JsValue.null, json] ∧
        ∃ grid keys data, resultParts json = some (grid, keys, data)) := by
  refine ⟨fun json => sync_returns_iff_async_delivers env g args_sync args_async w format
    format2 resolution add_features callback hsync hasync json, ?_⟩
  intro hpos hok
  refine ⟨encodeResult env g (env.grid2utf g [] [] resolution).lines
    (env.grid2utf g [] [] resolution).key_order resolution add_features, ?_, ?_, ?_⟩
  · rw [encodeSync_of_args env g args_sync format resolution add_features hsync, hok]
    simp [hpos]
  · rw [delivers_iff env g args_async w format2 resolution add_features callback hasync]
    exact ⟨rfl, Or.inr ⟨hok, hpos, rfl⟩⟩
  · exact ⟨_, _, _, rfl⟩

theorem sync_async_parity_witness :
    encodeSync_args sampleEnv sampleArgs = Except.ok ("utf", 4, true) ∧
      encode_args sampleEnv sampleAsyncArgs = Except.ok ("utf", 4, true, sampleCallback) ∧
      (4 : Nat) ≠ 0 ∧ (sampleEnv.grid2utf splitView [] [] 4).thrown = none ∧
      ∃ json, (encodeSync sampleEnv splitView sampleArgs).1 = Outcome.returned json ∧
        delivers sampleEnv splitView sampleAsyncArgs idleWorld sampleCallback
          [JsValue.null, json] ∧
        ∃ grid keys data, resultParts json = some (grid, keys, data) :=
  ⟨sampleArgs_read, sampleAsyncArgs_read, by decide, sample_encoder_ok,
    (sync_async_parity sampleEnv splitView sampleArgs sampleAsyncArgs idleWorld "utf" "utf" 4
      true sampleCallback sampleArgs_read sampleAsyncArgs_read).2 (by decide)
      sample_encoder_ok⟩

/-- C5. With the legend encoder of the specification, a request whose resolution is 0 is
an encoding failure on both paths: `encodeSync` throws `Error` with the encoder's message
after the one encoder run and returns no result, and `encode` queues the request and
hands its callback that `Error` as the only argument, exactly once. -/
theorem resolution_zero_fails_on_both_paths (cfg : LegendConfig) (tostr : JsValue → String)
    (write_features :
      GridView → List (String × JsValue) → List String → List (String × JsValue))
    (callbackThrows : JsValue → List JsValue → Bool) (g : GridView) (w : World) :
    (∀ args format add_features,
      encodeSync_args (specEnv cfg tostr write_features callbackThrows) args =
          Except.ok (format, 0, add_features) →
        encodeSync (specEnv cfg tostr write_features callbackThrows) g args =
          (Outcome.threw (JsValue.error cfg.zero_resolution), [Event.grid2utf g 0])) ∧
    (∀ args format add_features callback,
      encode_args (specEnv cfg tostr write_features callbackThrows) args =
          Except.ok (format, 0, add_features, callback) →
        delivers (specEnv cfg tostr write_features callbackThrows) g args w callback
          [JsValue.error cfg.zero_resolution]) := by
  have hthrown : ((specEnv cfg tostr write_features callbackThrows).grid2utf g [] [] 0).thrown =
      some (CppException.std cfg.zero_resolution) := by
    simp [specEnv, grid2utf]
  constructor
  · intro args format add_features hp
    rw [encodeSync_of_args _ g args format 0 add_features hp, hthrown]
  · intro args format add_features callback hp
    rw [delivers_iff _ g args w format 0 add_features callback hp]
    exact ⟨rfl, Or.inl ⟨_, hthrown, rfl⟩⟩

theorem resolution_zero_fails_on_both_paths_witness :
    encodeSync sampleEnv splitView zeroArgs =
        (Outcome.threw (JsValue.error "resolution must be positive"),
          [Event.grid2utf splitView 0]) ∧
      delivers sampleEnv splitView zeroAsyncArgs idleWorld sampleCallback
        [JsValue.error "resolution must be positive"] :=
  ⟨(resolution_zero_fails_on_both_paths sampleConfig _ _ _ splitView idleWorld).1
      zeroArgs "utf" true zeroArgs_read,
   (resolution_zero_fails_on_both_paths sampleConfig _ _ _ splitView idleWorld).2
      zeroAsyncArgs "utf" true sampleCallback zeroAsyncArgs_read⟩

/-- C6. For every view and every resolution `>= 1` for which the legend encoder
succeeds, `encodeSync` returns a result and `encode` hands one to its callback, and in
both every element of `grid` is a string of exactly `width() / resolution` (floor) 16-bit
code units. -/
theorem rows_have_floor_width (env : Env) (g : GridView) (resolution : Nat)
    (hpos : 1 ≤ resolution)
    (hok : (env.grid2utf g [] [] resolution).thrown = none) :
    (∀ args format add_features,
      encodeSync_args env args = Except.ok (format, resolution, add_features) →
        ∃ json, (encodeSync env g args).1 = Outcome.returned json ∧
          rowsHaveWidth json (g.width / resolution)) ∧
    (∀ args format add_features callback w,
      encode_args env args = Except.ok (format, resolution, add_features, callback) →
        ∃ json, delivers env g args w callback [JsValue.null, json] ∧
          rowsHaveWidth json (g.width / resolution)) := by
  have hne : resolution ≠ 0 := by omega
  constructor
  · intro args format add_features hp
    refine ⟨_, ?_, rowsHaveWidth_encodeResult env g (env.grid2utf g [] [] resolution).lines
      (env.grid2utf g [] [] resolution).key_order resolution add_features⟩
    rw [encodeSync_of_args env g args format resolution add_features hp, hok]
    simp [hne]
  · intro args format add_features callback w hp
    refine ⟨_, ?_, rowsHaveWidth_encodeResult env g (env.grid2utf g [] [] resolution).lines
      (env.grid2utf g [] [] resolution).key_order resolution add_features⟩
    rw [delivers_iff env g args w format resolution add_features callback hp]
    exact ⟨rfl, Or.inr ⟨hok, hne, rfl⟩⟩

theorem rows_have_floor_width_witness :
    1 ≤ 4 ∧ (sampleEnv.grid2utf splitView [] [] 4).thrown = none ∧
      (∃ json, (encodeSync sampleEnv splitView sampleArgs).1 = Outcome.returned json ∧
        rowsHaveWidth json (splitView.width / 4)) ∧
      (∃ json, delivers sampleEnv splitView sampleAsyncArgs idleWorld sampleCallback
          [JsValue.null, json] ∧
        rowsHaveWidth json (splitView.width / 4)) :=
  ⟨by decide, sample_encoder_ok,
    (rows_have_floor_width sampleEnv splitView 4 (by decide) sample_encoder_ok).1
      sampleArgs "utf" true sampleArgs_read,
    (rows_have_floor_width sampleEnv splitView 4 (by decide) sample_encoder_ok).2
      sampleAsyncArgs "utf" true sampleCallback idleWorld sampleAsyncArgs_read⟩


/-- C8, as amended. For every view and resolution: when the request's features flag is
`false`, the feature writer is not invoked and the `data` member of any result is empty,
on the `encodeSync` path and on the `encode` path; when the flag is `true` (supplied or
defaulted) and the legend encoder succeeds at a resolution that is not 0, the feature
writer is invoked exactly once, with the view and the legend, on both paths. -/
theorem feature_writer_use (env : Env) (g : GridView) (resolution : Nat) (w : World) :
    (∀ args format, encodeSync_args env args = Except.ok (format, resolution, false) →
      writerCalls (encodeSync env g args).2 = [] ∧
        ∀ json, (encodeSync env g args).1 = Outcome.returned json → dataIsEmpty json) ∧
    (∀ args format callback,
      encode_args env args = Except.ok (format, resolution, false, callback) →
        (∀ w2, asyncRun env g args w w2 → writerCalls w2.trace = writerCalls w.trace) ∧
          ∀ cb json, delivers env g args w cb [JsValue.null, json] → dataIsEmpty json) ∧
    (resolution ≠ 0 → (env.grid2utf g [] [] resolution).thrown = none →
      (∀ args format, encodeSync_args env args = Except.ok (format, resolution, true) →
        writerCalls (encodeSync env g args).2 =
          [(g, (env.grid2utf g [] [] resolution).key_order)]) ∧
      (∀ args format callback,
        encode_args env args = Except.ok (format, resolution, true, callback) →
          ∃ w2, asyncRun env g args w w2 ∧
            writerCalls w2.trace =
              writerCalls w.trace ++ [(g, (env.grid2utf g [] [] resolution).key_order)])) := by
  refine ⟨?_, ?_, ?_⟩
  · intro args format hp
    rw [encodeSync_of_args env g args format resolution false hp]
    rcases Option.eq_none_or_eq_some (env.grid2utf g [] [] resolution).thrown with ht | ⟨e, ht⟩
    · rw [ht]
      refine ⟨by simp [writerCalls], ?_⟩
      intro json hjson
      by_cases hres : resolution = 0
      · simp [hres] at hjson
      · simp only [if_neg hres, Outcome.returned.injEq] at hjson
        rw [← hjson]
        exact dataIsEmpty_encodeResult env g _ _ resolution
    · rw [ht]
      cases e <;> exact ⟨by simp [writerCalls], by intro json hjson; simp at hjson⟩
  · intro args format callback hp
    constructor
    · intro w2 hrun
      rw [asyncRun_iff env g args w format resolution false callback hp] at hrun
      rcases Option.eq_none_or_eq_some (env.grid2utf g [] [] resolution).thrown with ht | ⟨e, ht⟩
      · rw [ht] at hrun
        by_cases hres : resolution = 0
        · simp [hres] at hrun
        · simp only [if_neg hres, Option.some.injEq] at hrun
          subst hrun
          simp [writerCalls_append, writerCalls_fatal, writerCalls]
      · rw [ht] at hrun
        simp only [Option.some.injEq] at hrun
        subst hrun
        simp [writerCalls_append, writerCalls_fatal, writerCalls]
    · intro cb json hd
      rw [delivers_iff env g args w format resolution false callback hp] at hd
      rcases hd with ⟨_, ⟨e, _, he⟩ | ⟨_, _, hj⟩⟩
      · simp at he
      · simp only [List.cons.injEq, and_true, true_and] at hj
        rw [hj]
        exact dataIsEmpty_encodeResult env g _ _ resolution
  · intro hres hok
    constructor
    · intro args format hp
      rw [encodeSync_of_args env g args format resolution true hp, hok]
      simp [writerCalls]
    · intro args format callback hp
      simp only [asyncRun_iff env g args w format resolution true callback hp, hok, if_neg hres]
      refine ⟨_, rfl, ?_⟩
      simp [writerCalls_append, writerCalls_fatal, writerCalls]

theorem feature_writer_use_witness :
    (writerCalls (encodeSync sampleEnv splitView plainArgs).2 = [] ∧
      ∀ json, (encodeSync sampleEnv splitView plainArgs).1 = Outcome.returned json →
        dataIsEmpty json) ∧
    ((∀ w2, asyncRun sampleEnv splitView plainAsyncArgs idleWorld w2 →
        writerCalls w2.trace = writerCalls idleWorld.trace) ∧
      ∀ cb json, delivers sampleEnv splitView plainAsyncArgs idleWorld cb [JsValue.null, json] →
        dataIsEmpty json) ∧
    ((4 : Nat) ≠ 0 ∧ (sampleEnv.grid2utf splitView [] [] 4).thrown = none ∧
      writerCalls (encodeSync sampleEnv splitView sampleArgs).2 =
        [(splitView, (sampleEnv.grid2utf splitView [] [] 4).key_order)] ∧
      ∃ w2, asyncRun sampleEnv splitView sampleAsyncArgs idleWorld w2 ∧
        writerCalls w2.trace =
          writerCalls idleWorld.trace ++
            [(splitView, (sampleEnv.grid2utf splitView [] [] 4).key_order)]) :=
  ⟨(feature_writer_use sampleEnv splitView 4 idleWorld).1 plainArgs "utf" plainArgs_read,
    (feature_writer_use sampleEnv splitView 4 idleWorld).2.1 plainAsyncArgs "utf"
      sampleCallback plainAsyncArgs_read,
    by decide, sample_encoder_ok,
    ((feature_writer_use sampleEnv splitView 4 idleWorld).2.2 (by decide)
      sample_encoder_ok).1 sampleArgs "utf" sampleArgs_read,
    ((feature_writer_use sampleEnv splitView 4 idleWorld).2.2 (by decide)
      sample_encoder_ok).2 sampleAsyncArgs "utf" sampleCallback sampleAsyncArgs_read⟩

/-- C8 as stated fails where the legend encoder fails: at resolution 0 with features
asked for (`features: true`), the encoder of the specification raises, `encodeSync` throws
and the feature writer is not run at all, where the claim has it run exactly once. -/
theorem feature_writer_not_run_at_resolution_zero :
    encodeSync_args sampleEnv zeroArgs = Except.ok ("utf", 0, true) ∧
      (encodeSync sampleEnv splitView zeroArgs).1 =
        Outcome.threw (JsValue.error "resolution must be positive") ∧
      writerCalls (encodeSync sampleEnv splitView zeroArgs).2 = [] ∧
      ¬ ∃ legend, writerCalls (encodeSync sampleEnv splitView zeroArgs).2 =
        [(splitView, legend)] :=
  ⟨rfl, rfl, rfl, by
    rintro ⟨legend, h⟩
    have h0 : writerCalls (encodeSync sampleEnv splitView zeroArgs).2 = [] := rfl
    rw [h0] at h
    exact absurd h (by simp)⟩

end NodeMapnik
